import Mathlib

/-!
# Verification of the gifpgn rendering core

Shallow embedding of the score mapping, geometry kernel, layout, and
configuration-guard logic of the gifpgn package, together with proofs of the
spec's claims about them.  Machine integers are modelled by `ℤ`/`ℕ`, Python
float arithmetic on exact inputs by `ℚ` (where the source only ever divides,
multiplies and floors integer-valued data) or by `ℝ` (for `sqrt`/`cos`/`sin`),
and raising an exception by returning `Except.error`.
-/

/-- Mirror of `chess.engine.Score`: either a centipawn value or a signed
"mate in n" indicator (`chess.engine.Cp` / `chess.engine.Mate`). -/
inductive EngineScore where
  | cp (v : ℤ)
  | mate (n : ℤ)
deriving DecidableEq, Repr

/-- Mirror of `Score.score(mate_score=...)` from python-chess: a centipawn
score is returned unchanged; `Mate(n)` becomes `mate_score - n` when `n > 0`
and `-mate_score - n` otherwise. -/
def score_with_mate_score (s : EngineScore) (mate_score : ℤ) : ℤ :=
  match s with
  | .cp v => v
  | .mate n => if 0 < n then mate_score - n else -mate_score - n

/-- Mirror of `Score.mate()`: `None` for a centipawn score, the signed mate
distance otherwise. -/
def mate_of (s : EngineScore) : Option ℤ :=
  match s with
  | .cp _ => none
  | .mate n => some n

/-- Mirror of `chess.engine.PovScore`: a score plus the point of view it is
relative to (`True` = white). -/
structure PovScore where
  score : EngineScore
  turn : Bool
deriving DecidableEq, Repr

/-- The errors of `gifpgn/exceptions.py`.  `MoveOutOfRangeError.__init__`
formats its message from the requested move and the maximum ply, so the
constructor here carries the already formatted message string;
`MissingAnalysisError` carries the message given at the raise site (`""` for a
bare `raise MissingAnalysisError`). -/
inductive GifError where
  | moveOutOfRange (msg : String)
  | missingAnalysis (msg : String)
deriving DecidableEq, Repr

/-- The message built by `MoveOutOfRangeError.__init__(move, range)`. -/
def move_out_of_range_message (move rng : ℤ) : String :=
  "Requested move (" ++ toString move ++ ") was higher than the game length (" ++ toString rng ++ ")"

/-! ## Geometry kernel (`gifpgn/geometry.py`)

`rotate_around_point` and `shorten_line` use `math.cos`/`sin`/`sqrt`, so they
are modelled over `ℝ`; `line_intersection` only uses field operations on its
inputs, which in the graph renderer are integer-valued, so it is modelled over
`ℚ` to keep it executable. -/

/-- Embedding of `geometry.rotate_around_point`: the source computes
`qx = ox + cos(r)*(x-ox) + sin(r)*(y-oy)` and
`qy = oy + -sin(r)*(x-ox) + cos(r)*(y-oy)` and returns `(qx, qy)` as is. -/
noncomputable def rotate_around_point (point : ℝ × ℝ) (radians : ℝ) (origin : ℝ × ℝ) : ℝ × ℝ :=
  (origin.1 + Real.cos radians * (point.1 - origin.1) + Real.sin radians * (point.2 - origin.2),
   origin.2 + -Real.sin radians * (point.1 - origin.1) + Real.cos radians * (point.2 - origin.2))

/-- The standard mathematical 2D rotation about an origin, written from the
spec's words ("standard 2D rotation ... rotation sign is negated relative to
mathematical convention"); used only to compare `rotate_around_point`
against the mathematical convention. -/
noncomputable def math_rotation (p : ℝ × ℝ) (theta : ℝ) (o : ℝ × ℝ) : ℝ × ℝ :=
  (o.1 + Real.cos theta * (p.1 - o.1) - Real.sin theta * (p.2 - o.2),
   o.2 + Real.sin theta * (p.1 - o.1) + Real.cos theta * (p.2 - o.2))

/-- Euclidean length of the segment from `c1` to `c2`, as computed inside
`geometry.shorten_line` (`sqrt(dx*dx + dy*dy)`). -/
noncomputable def seg_length (c1 c2 : ℝ × ℝ) : ℝ :=
  Real.sqrt ((c2.1 - c1.1) * (c2.1 - c1.1) + (c2.2 - c1.2) * (c2.2 - c1.2))

/-- Embedding of `geometry.shorten_line`: normalise `(dx, dy)` when the length
is positive, scale by `l - pix`, and return `(c1, c1 + scaled)`. -/
noncomputable def shorten_line (c1 c2 : ℝ × ℝ) (pix : ℝ) : (ℝ × ℝ) × (ℝ × ℝ) :=
  let dx := c2.1 - c1.1
  let dy := c2.2 - c1.2
  let l := Real.sqrt (dx * dx + dy * dy)
  let dx2 := if 0 < l then dx / l else dx
  let dy2 := if 0 < l then dy / l else dy
  (c1, (c1.1 + dx2 * (l - pix), c1.2 + dy2 * (l - pix)))

/-- Embedding of `geometry.line_intersection`: determinant-based intersection
of the two infinite lines through the given segments; `none` when the
determinant `div` is exactly zero. -/
def line_intersection (line1 line2 : (ℚ × ℚ) × (ℚ × ℚ)) : Option (ℚ × ℚ) :=
  let xdiff : ℚ × ℚ := (line1.1.1 - line1.2.1, line2.1.1 - line2.2.1)
  let ydiff : ℚ × ℚ := (line1.1.2 - line1.2.2, line2.1.2 - line2.2.2)
  let det : ℚ × ℚ → ℚ × ℚ → ℚ := fun a b => a.1 * b.2 - a.2 * b.1
  let d := det xdiff ydiff
  if d = 0 then none
  else
    let dd : ℚ × ℚ := (det line1.1 line1.2, det line2.1 line2.2)
    some (det dd xdiff / d, det dd ydiff / d)

/-! ## Board renderer square colors (`_Board.get_square_color`) -/

/-- Embedding of `_Board.get_square_color` (identical to
`CreateGifFromPGN._get_square_color`): `square % 2 != floor(square/8) % 2`.
For `0 ≤ square ≤ 63` Python's `floor(square/8)` on the exact float quotient
equals integer division by 8.  The result is a `chess.Color`:
`true` = white/light, `false` = black/dark. -/
def get_square_color (square : ℕ) : Bool :=
  decide (square % 2 ≠ square / 8 % 2)

/-! ## Canvas layout (`_Canvas`) -/

/-- State of `components._Canvas` after `__init__`: each disabled (`None`)
optional layer is stored as size `0`. -/
structure CanvasSpec where
  board_size : ℤ
  bar_size : ℤ
  graph_size : ℤ
  header_size : ℤ
  reverse : Bool
deriving DecidableEq, Repr

/-- Embedding of `_Canvas.__init__`'s size bookkeeping:
`0 if analysis_bar is None else analysis_bar`, etc. -/
def canvas_mk (board : ℤ) (analysis_bar analysis_graph headers : Option ℤ)
    (reverse : Bool) : CanvasSpec :=
  { board_size := board
    bar_size := analysis_bar.getD 0
    graph_size := analysis_graph.getD 0
    header_size := headers.getD 0
    reverse := reverse }

/-- Embedding of `_Canvas.size`:
`(board + bar, board + graph + header*2)`. -/
def canvas_size (c : CanvasSpec) : ℤ × ℤ :=
  (c.board_size + c.bar_size, c.board_size + c.graph_size + c.header_size * 2)

/-! ## Evaluation bar (`_EvalBar._get_bar_position`) -/

/-- Embedding of `_EvalBar._get_bar_position` (components.py):
`max_eval = self._max_eval + (0 if evalu.mate() is None else abs(evalu.mate()))`,
`y = ((evalu.score(mate_score=max_eval)/max_eval)+1)*(self._height/2)`,
flipped to `height - y` when not reversed, floored to an integer. -/
def get_bar_position (max_eval height : ℤ) (reverse : Bool) (evalu : EngineScore) : ℤ :=
  let m : ℤ := max_eval + (match mate_of evalu with | none => 0 | some n => |n|)
  let y : ℚ := ((score_with_mate_score evalu m : ℚ) / (m : ℚ) + 1) * ((height : ℚ) / 2)
  let y2 : ℚ := if reverse then y else (height : ℚ) - y
  ⌊y2⌋

/-! ## Evaluation graph (`_Graph`) -/

/-- Embedding of `_Graph._get_graph_position`: `ply_count` stands for
`end().ply() - game_root.ply()`; `x = (width/ply_count)*move`,
`y = -((score - max_eval)*(height-1))/(2*max_eval)`, both floored. -/
def get_graph_position (width height max_eval ply_count : ℤ)
    (evalu : EngineScore) (move : ℤ) : ℤ × ℤ :=
  let x : ℚ := ((width : ℚ) / (ply_count : ℚ)) * (move : ℚ)
  let y : ℚ := -(((score_with_mate_score evalu max_eval - max_eval) : ℚ) * ((height : ℚ) - 1)) /
      (2 * (max_eval : ℚ))
  (⌊x⌋, ⌊y⌋)

/-- Cast an integer pixel coordinate to `ℚ × ℚ` for `line_intersection`. -/
def to_q (p : ℤ × ℤ) : ℚ × ℚ := ((p.1 : ℚ), (p.2 : ℚ))

/-- One iteration of the fill loop of `_Graph._draw_graph_background` for a
move `move ≥ 1`: `prev_ev` and `ev` are the white-relative
`score(mate_score=max_eval)` values at the previous and current ply (the same
integers the source stores in `evalu`/`prev_evalu`), and the result is the list
of `(polygon, fill color)` pairs passed to `draw.polygon` for this segment.
When the source's `line_intersection` call returns `None` (zero determinant)
the source hands `None` to `draw.polygon`, which fails; this is modelled as
`none`. -/
def draw_graph_step (width height max_eval ply_count prev_ev ev move : ℤ) :
    Option (List (List (ℚ × ℚ) × String)) :=
  let p_prev := to_q (get_graph_position width height max_eval ply_count (.cp prev_ev) (move - 1))
  let p_new := to_q (get_graph_position width height max_eval ply_count (.cp ev) move)
  let z_prev := to_q (get_graph_position width height max_eval ply_count (.cp 0) (move - 1))
  let z_new := to_q (get_graph_position width height max_eval ply_count (.cp 0) move)
  if ev * prev_ev < 0 then
    match line_intersection (p_prev, p_new) (z_prev, z_new) with
    | none => none
    | some zinter =>
      some [([z_prev, p_prev, zinter], if prev_ev < 0 then "#514f4c" else "#7f7e7c"),
            ([zinter, p_new, z_new], if ev < 0 then "#514f4c" else "#7f7e7c")]
  else
    some [([z_prev, p_prev, p_new, z_new],
           if ev = 0 then (if prev_ev < 0 then "#514f4c" else "#7f7e7c")
           else (if ev < 0 then "#514f4c" else "#7f7e7c"))]

/-! ## Game model and configuration state (`gifpgn.py`, `utils.py`)

The mainline of a `chess.pgn.Game` is modelled as the list of its nodes from
the root; the core treats it strictly as a linear sequence.  Only the data the
verified operations inspect is kept: the final ply number, and per node the
optional `[%eval ...]` annotation, whether the node's board is checkmate, and
the side to move. -/

/-- One mainline node: `game.eval()`, `game.board().is_checkmate()`,
`game.turn()`. -/
structure GNode where
  ev : Option PovScore
  checkmate : Bool
  turn : Bool
deriving DecidableEq, Repr

/-- A game as seen by `CreateGifFromPGN`: the final ply number
(`game.end().ply()`; the root is ply 0 per the spec's data model) and the
mainline node list (root first). -/
structure GameModel where
  end_ply : ℤ
  nodes : List GNode
deriving DecidableEq, Repr

/-- Configuration state of a `CreateGifFromPGN` instance (the fields the
optional-feature calls touch, plus the game).  `none` sizes model disabled
layers. -/
structure GifPGNState where
  game_root : GameModel
  board_size : ℤ
  max_eval : ℤ
  reverse : Bool
  arrows : Bool
  nag : Bool
  bar_size : Option ℤ
  graph_size : Option ℤ
  header_size : Option ℤ
deriving DecidableEq, Repr

/-- Embedding of `CreateGifFromPGN.__init__`: `ValueError` for `game is None`
and for `game.end().ply() < 1`; otherwise an instance with the defaults set
(`board_size 480`, `max_eval 1000`, every optional feature off). -/
def create_gif_init (game : Option GameModel) : Except String GifPGNState :=
  match game with
  | none => Except.error "Provided game is not valid/empty"
  | some g =>
    if g.end_ply < 1 then Except.error "Provided game does not have any moves."
    else Except.ok
      { game_root := g, board_size := 480, max_eval := 1000, reverse := false,
        arrows := false, nag := false, bar_size := none, graph_size := none,
        header_size := none }

/-- Embedding of `CreateGifFromPGN.pgn_has_analysis`: walk the mainline from
the root; `False` as soon as a node's `eval()` is `None`, `True` once the end
is reached. -/
def pgn_has_analysis : List GNode → Bool
  | [] => true
  | n :: rest =>
    match n.ev with
    | none => false
    | some _ => pgn_has_analysis rest

/-- Embedding of `CreateGifFromPGN.add_analysis_bar`: raise
`MissingAnalysisError` when some ply lacks an evaluation (leaving the
configuration untouched — an error carries no updated state), otherwise enable
the bar with the given width. -/
def add_analysis_bar (st : GifPGNState) (width : ℤ) : Except GifError GifPGNState :=
  if ¬ pgn_has_analysis st.game_root.nodes then
    Except.error (.missingAnalysis "PGN did not contain evaluations for each half move")
  else Except.ok { st with bar_size := some width }

/-- Embedding of `CreateGifFromPGN.add_analysis_graph`. -/
def add_analysis_graph (st : GifPGNState) (height : ℤ) : Except GifError GifPGNState :=
  if ¬ pgn_has_analysis st.game_root.nodes then
    Except.error (.missingAnalysis "PGN did not contain evaluations for each half move")
  else Except.ok { st with graph_size := some height }

/-- Embedding of `CreateGifFromPGN.enable_nags` (note the slightly different
message string in the source: "every" instead of "each"). -/
def enable_nags (st : GifPGNState) : Except GifError GifPGNState :=
  if ¬ pgn_has_analysis st.game_root.nodes then
    Except.error (.missingAnalysis "PGN did not contain evaluations for every half move")
  else Except.ok { st with nag := true }

/-- The range check at the top of `_Graph.at_move`: raise
`MoveOutOfRangeError(move_num, end_ply)` when `move_num > end_ply`, else
proceed (the rest of `at_move` draws the marker and never raises this
error). -/
def at_move_check (end_ply move_num : ℤ) : Except GifError Unit :=
  if move_num > end_ply then
    Except.error (.moveOutOfRange (move_out_of_range_message move_num end_ply))
  else Except.ok ()

/-- Embedding of `utils.PGN.has_analysis`: walk the mainline; at the first
node whose `eval()` is `None`, return `True` if that node's position is
checkmate (ending the scan) and `False` otherwise; reaching the end returns
`True`. -/
def PGN_has_analysis : List GNode → Bool
  | [] => true
  | n :: rest =>
    match n.ev with
    | none => if n.checkmate then true else false
    | some _ => PGN_has_analysis rest

/-- Embedding of `utils._eval`: return the node's evaluation when present;
for an unannotated node substitute `PovScore(Mate(0), game.turn())` when the
position is checkmate, else raise `MissingAnalysisError` (bare raise, empty
message). -/
def node_eval (n : GNode) : Except GifError PovScore :=
  match n.ev with
  | some s => Except.ok s
  | none =>
    if n.checkmate then Except.ok { score := .mate 0, turn := n.turn }
    else Except.error (.missingAnalysis "")

/-- Helper invariant of real chess games: a checkmate position ends the game,
so a node whose board is checkmate has no successor in the mainline. -/
def checkmate_terminal : List GNode → Bool
  | [] => true
  | n :: rest => (!n.checkmate || rest.isEmpty) && checkmate_terminal rest

/-! ## Theorems -/

/-- `CreateGifFromPGN.pgn_has_analysis` is `True` exactly when every mainline
node carries an evaluation (helper for the configuration guards). -/
theorem pgn_has_analysis_iff (l : List GNode) :
    pgn_has_analysis l = true ↔ ∀ n ∈ l, n.ev.isSome = true := by
  induction l with
  | nil => simp [pgn_has_analysis]
  | cons a rest ih =>
    cases hev : a.ev with
    | none => simp [pgn_has_analysis, hev]
    | some s => simp [pgn_has_analysis, hev, ih]

/-- Claim C5: `get_square_color` follows the parity rule
`light iff (s % 2) != (s / 8) % 2` (integer division); hence square 0 is dark
and within a rank adjacent squares have different colors. -/
theorem square_color_parity :
    (∀ s : ℕ, s < 64 → (get_square_color s = true ↔ s % 2 ≠ s / 8 % 2))
  ∧ get_square_color 0 = false
  ∧ (∀ s : ℕ, s < 64 → s % 8 ≠ 7 → get_square_color s ≠ get_square_color (s + 1)) := by
  refine ⟨by decide, by decide, by decide⟩

/-- Witness for claim C5 at a concrete square (a8-adjacent pair 8, 9). -/
theorem square_color_parity_witness :
    ((8:ℕ) < 64 ∧ (8:ℕ) % 8 ≠ 7) ∧ get_square_color 8 ≠ get_square_color 9 :=
  ⟨⟨by decide, by decide⟩, square_color_parity.2.2 8 (by decide) (by decide)⟩

/-- Claim C6: the composed canvas size is
`(board + bar, board + graph + 2*header)` with disabled layers contributing 0;
with every optional layer disabled it is exactly `(board, board)`. -/
theorem canvas_size_spec (board : ℤ) (bar graph headers : Option ℤ) (reverse : Bool) :
    canvas_size (canvas_mk board bar graph headers reverse)
      = (board + bar.getD 0, board + graph.getD 0 + 2 * headers.getD 0)
  ∧ canvas_size (canvas_mk board none none none reverse) = (board, board) := by
  constructor
  · simp only [canvas_size, canvas_mk, Prod.mk.injEq]
    exact ⟨trivial, by ring⟩
  · simp [canvas_size, canvas_mk]

/-- Claim C4: `_Graph.at_move` raises `MoveOutOfRangeError` exactly for move
numbers greater than the final ply, with a message naming the requested move
and the maximum ply; for move numbers at most the final ply it does not
raise it. -/
theorem at_move_range_spec (end_ply move_num : ℤ) :
    (end_ply < move_num →
      at_move_check end_ply move_num =
        Except.error (.moveOutOfRange
          ("Requested move (" ++ toString move_num ++
            ") was higher than the game length (" ++ toString end_ply ++ ")")))
  ∧ (move_num ≤ end_ply → at_move_check end_ply move_num = Except.ok ()) := by
  constructor
  · intro h
    simp [at_move_check, move_out_of_range_message, h]
  · intro h
    simp [at_move_check, not_lt.2 h]

/-- Witness for claim C4: requesting move 7 of a 5-ply game errors with both
numbers in the message; requesting move 4 does not. -/
theorem at_move_range_spec_witness :
    ((5:ℤ) < 7 ∧ at_move_check 5 7 =
      Except.error (.moveOutOfRange
        ("Requested move (" ++ toString (7:ℤ) ++
          ") was higher than the game length (" ++ toString (5:ℤ) ++ ")")))
  ∧ ((4:ℤ) ≤ 5 ∧ at_move_check 5 4 = Except.ok ()) :=
  ⟨⟨by norm_num, (at_move_range_spec 5 7).1 (by norm_num)⟩,
   ⟨by norm_num, (at_move_range_spec 5 4).2 (by norm_num)⟩⟩

/-- Claim C3: when some mainline node lacks an evaluation, each of
`add_analysis_bar`, `add_analysis_graph` and `enable_nags` raises
`MissingAnalysisError` at the call (returning an error, so the configuration
is unchanged and the feature stays disabled); when every node has an
evaluation, each call succeeds and enables exactly its feature. -/
theorem analysis_feature_guard (st : GifPGNState) (width height : ℤ) :
    ((∃ n ∈ st.game_root.nodes, n.ev = none) →
        add_analysis_bar st width =
          Except.error (.missingAnalysis "PGN did not contain evaluations for each half move")
      ∧ add_analysis_graph st height =
          Except.error (.missingAnalysis "PGN did not contain evaluations for each half move")
      ∧ enable_nags st =
          Except.error (.missingAnalysis "PGN did not contain evaluations for every half move"))
  ∧ ((∀ n ∈ st.game_root.nodes, n.ev.isSome = true) →
        add_analysis_bar st width = Except.ok { st with bar_size := some width }
      ∧ add_analysis_graph st height = Except.ok { st with graph_size := some height }
      ∧ enable_nags st = Except.ok { st with nag := true }) := by
  constructor
  · rintro ⟨n, hn, hev⟩
    have hno : ¬ pgn_has_analysis st.game_root.nodes = true := by
      rw [pgn_has_analysis_iff]
      intro hall
      have := hall n hn
      simp [hev] at this
    exact ⟨by simp [add_analysis_bar, hno], by simp [add_analysis_graph, hno],
      by simp [enable_nags, hno]⟩
  · intro hall
    have hyes : pgn_has_analysis st.game_root.nodes = true :=
      (pgn_has_analysis_iff _).2 hall
    exact ⟨by simp [add_analysis_bar, hyes], by simp [add_analysis_graph, hyes],
      by simp [enable_nags, hyes]⟩

/-- Witness for claim C3: a game whose second node has no evaluation makes
`add_analysis_bar` error; a fully annotated game enables the bar. -/
theorem analysis_feature_guard_witness :
    (∃ n ∈ ([⟨none, false, false⟩] : List GNode), n.ev = none)
  ∧ add_analysis_bar
      ⟨⟨1, [⟨none, false, false⟩]⟩, 480, 1000, false, false, false, none, none, none⟩ 30
      = Except.error (.missingAnalysis "PGN did not contain evaluations for each half move")
  ∧ add_analysis_bar
      ⟨⟨1, [⟨some ⟨.cp 10, true⟩, false, true⟩]⟩, 480, 1000, false, false, false, none, none, none⟩ 30
      = Except.ok
        ⟨⟨1, [⟨some ⟨.cp 10, true⟩, false, true⟩]⟩, 480, 1000, false, false, false, some 30, none, none⟩ :=
  ⟨by decide,
   ((analysis_feature_guard _ 30 81).1 (by decide)).1,
   ((analysis_feature_guard _ 30 81).2 (by decide)).1⟩

/-- Claim C9: constructing `CreateGifFromPGN` rejects a `None` game and a game
whose final ply is below 1 with `ValueError`; any successfully constructed
instance therefore has final ply at least 1, so the graph x-position divisor
is nonzero. -/
theorem create_gif_init_spec (g : GameModel) :
    create_gif_init none = Except.error "Provided game is not valid/empty"
  ∧ (g.end_ply < 1 →
      create_gif_init (some g) = Except.error "Provided game does not have any moves.")
  ∧ (∀ st : GifPGNState, create_gif_init (some g) = Except.ok st →
      1 ≤ st.game_root.end_ply ∧ st.game_root.end_ply ≠ 0) := by
  refine ⟨rfl, ?_, ?_⟩
  · intro h
    simp [create_gif_init, h]
  · intro st hst
    by_cases h : g.end_ply < 1
    · simp [create_gif_init, h] at hst
    · simp [create_gif_init, h] at hst
      subst hst
      push_neg at h
      exact ⟨h, by show g.end_ply ≠ 0; omega⟩

/-- Witness for claim C9: a moveless game is rejected; a 1-ply game is
accepted with nonzero final ply. -/
theorem create_gif_init_spec_witness :
    ((0:ℤ) < 1 ∧ create_gif_init (some ⟨0, []⟩) =
      Except.error "Provided game does not have any moves.")
  ∧ (1 ≤ (1:ℤ) ∧ (1:ℤ) ≠ 0) :=
  ⟨⟨by norm_num, (create_gif_init_spec ⟨0, []⟩).2.1 (by norm_num)⟩,
   (create_gif_init_spec ⟨1, []⟩).2.2
     ⟨⟨1, []⟩, 480, 1000, false, false, false, none, none, none⟩ rfl⟩

/-- Claim C1 (code bug): with the default configuration (graph height 81,
supersampled to 324, `max_eval` 1000, width 1920 over a 2-ply game), the
white-relative clamped scores -1 then +1 have a strictly negative product, yet
all four floored polygon vertices land on y = 161, the zero-axis segment and
the evaluation segment are collinear, `line_intersection` returns `None`
(zero determinant), and the source passes `None` to `draw.polygon`: no split
into two polygons happens — the render fails instead. -/
theorem graph_zero_crossing_crash :
    ((1 : ℤ) * (-1) < 0)
  ∧ get_graph_position 1920 324 1000 2 (.cp (-1)) 0 = (0, 161)
  ∧ get_graph_position 1920 324 1000 2 (.cp 1) 1 = (960, 161)
  ∧ line_intersection (((0:ℚ), 161), ((960:ℚ), 161)) (((0:ℚ), 161), ((960:ℚ), 161)) = none
  ∧ draw_graph_step 1920 324 1000 2 (-1) 1 1 = none := by
  refine ⟨by norm_num, ?_, ?_, ?_, ?_⟩
  · norm_num [get_graph_position, score_with_mate_score]
  · norm_num [get_graph_position, score_with_mate_score]
  · norm_num [line_intersection]
  · norm_num [draw_graph_step, get_graph_position, score_with_mate_score, to_q,
      line_intersection]

/-- Counterexample to claim C2: a mate score does not always saturate the bar
boundary to the full-favor edge.  For `max_eval = 1000`, bar height 480, not
reversed, `Mate(100)` (white mating) yields boundary 21, not the claimed edge
0 (nor 480). -/
theorem bar_mate_not_saturated :
    get_bar_position 1000 480 false (.mate 100) = 21
  ∧ get_bar_position 1000 480 false (.mate 100) ≠ 0
  ∧ get_bar_position 1000 480 false (.mate 100) ≠ 480 := by
  refine ⟨?_, ?_, ?_⟩ <;>
    norm_num [get_bar_position, mate_of, score_with_mate_score]

/-- Claim C2 (amended): for a mate in `n` the bar boundary misses the
full-favor edge by `⌊h·|n| / (2·(max_eval+|n|))⌋` pixels on the `y = 0` side
and by `⌈h·|n| / (2·(max_eval+|n|))⌉` pixels on the `y = h` side (so it
saturates exactly only when that quotient vanishes, which fails for large
mate distances and is off by one on the `y = h` side); a centipawn score of 0
puts the boundary at `⌊h/2⌋`, exactly half the bar height whenever the height
is even. -/
theorem get_bar_position_mate_formula (max_eval height n m : ℤ)
    (hmax : 0 < max_eval) (hn : 0 < n) (hm : m < 0) :
    get_bar_position max_eval height false (.mate n)
      = ⌊((height : ℚ) * n) / (2 * ((max_eval : ℚ) + n))⌋
  ∧ get_bar_position max_eval height true (.mate n)
      = height - ⌈((height : ℚ) * n) / (2 * ((max_eval : ℚ) + n))⌉
  ∧ get_bar_position max_eval height false (.mate m)
      = height - ⌈((height : ℚ) * (-m)) / (2 * ((max_eval : ℚ) - m))⌉
  ∧ get_bar_position max_eval height true (.mate m)
      = ⌊((height : ℚ) * (-m)) / (2 * ((max_eval : ℚ) - m))⌋
  ∧ (∀ r : Bool, get_bar_position max_eval height r (.cp 0) = ⌊(height : ℚ) / 2⌋)
  ∧ (height % 2 = 0 → ∀ r : Bool, 2 * get_bar_position max_eval height r (.cp 0) = height) := by
  have habs : |n| = n := abs_of_pos hn
  have habsm : |m| = -m := abs_of_neg hm
  have hm' : ¬ (0 : ℤ) < m := by omega
  have hMn : ((max_eval : ℚ) + (n : ℚ)) ≠ 0 := by
    have h1 : (0:ℚ) < (max_eval : ℚ) + n := by exact_mod_cast (by omega : (0:ℤ) < max_eval + n)
    exact h1.ne'
  have hMm : ((max_eval : ℚ) - (m : ℚ)) ≠ 0 := by
    have h1 : (0:ℚ) < (max_eval : ℚ) - m := by exact_mod_cast (by omega : (0:ℤ) < max_eval - m)
    exact h1.ne'
  have hMm2 : ((max_eval : ℚ) + -(m : ℚ)) ≠ 0 := by rwa [← sub_eq_add_neg]
  have hfloorn : ⌊(height : ℚ) - ((height : ℚ) * n) / (2 * ((max_eval : ℚ) + n))⌋
      = height - ⌈((height : ℚ) * n) / (2 * ((max_eval : ℚ) + n))⌉ := by
    rw [show (height : ℚ) - ((height : ℚ) * n) / (2 * ((max_eval : ℚ) + n))
        = -(((height : ℚ) * n) / (2 * ((max_eval : ℚ) + n))) + ((height : ℤ) : ℚ) from by ring]
    rw [Int.floor_add_int, Int.floor_neg]
    ring
  have hfloorm : ⌊(height : ℚ) - ((height : ℚ) * (-m)) / (2 * ((max_eval : ℚ) - m))⌋
      = height - ⌈((height : ℚ) * (-m)) / (2 * ((max_eval : ℚ) - m))⌉ := by
    rw [show (height : ℚ) - ((height : ℚ) * (-m)) / (2 * ((max_eval : ℚ) - m))
        = -(((height : ℚ) * (-m)) / (2 * ((max_eval : ℚ) - m))) + ((height : ℤ) : ℚ) from by
      ring]
    rw [Int.floor_add_int, Int.floor_neg]
    ring
  have hcp : ∀ r : Bool, get_bar_position max_eval height r (.cp 0) = ⌊(height : ℚ) / 2⌋ := by
    intro r
    cases r <;>
      (simp only [get_bar_position, mate_of, score_with_mate_score, Bool.false_eq_true,
        if_false, if_true]
       congr 1
       push_cast
       ring)
  refine ⟨?_, ?_, ?_, ?_, hcp, ?_⟩
  · simp only [get_bar_position, mate_of, score_with_mate_score, habs, hn, if_true,
      Bool.false_eq_true, if_false]
    congr 1
    push_cast
    field_simp
    ring
  · rw [← hfloorn]
    simp only [get_bar_position, mate_of, score_with_mate_score, habs, hn, if_true]
    congr 1
    push_cast
    field_simp
    ring
  · rw [← hfloorm]
    simp only [get_bar_position, mate_of, score_with_mate_score, habsm, hm', if_false,
      Bool.false_eq_true]
    congr 1
    push_cast
    field_simp
    ring
  · simp only [get_bar_position, mate_of, score_with_mate_score, habsm, hm', if_false,
      if_true]
    congr 1
    push_cast
    field_simp
    ring
  · intro he r
    rw [hcp r]
    obtain ⟨k, hk⟩ : ∃ k, height = 2 * k := ⟨height / 2, by omega⟩
    subst hk
    rw [show ((2 * k : ℤ) : ℚ) / 2 = (k : ℚ) from by push_cast; ring]
    rw [Int.floor_intCast]

/-- Witness for (amended) claim C2 at `max_eval = 1000`, height 480:
`Mate(3)` gives boundary 0 when not reversed and 479 (one short of 480) when
reversed; `Cp(0)` centers the bar at 240. -/
theorem get_bar_position_mate_formula_witness :
    ((0:ℤ) < 1000 ∧ (0:ℤ) < 3 ∧ (-3:ℤ) < 0)
  ∧ get_bar_position 1000 480 false (.mate 3) = 0
  ∧ get_bar_position 1000 480 true (.mate 3) = 479
  ∧ get_bar_position 1000 480 false (.cp 0) = 240 := by
  have h := get_bar_position_mate_formula 1000 480 3 (-3) (by norm_num) (by norm_num)
    (by norm_num)
  refine ⟨⟨by norm_num, by norm_num, by norm_num⟩, h.1.trans (by norm_num),
    h.2.1.trans ?_, (h.2.2.2.2.1 false).trans (by norm_num)⟩
  have hc : ⌈(((480:ℤ) : ℚ) * ((3:ℤ) : ℚ)) / (2 * (((1000:ℤ) : ℚ) + ((3:ℤ) : ℚ)))⌉ = 1 := by
    rw [Int.ceil_eq_iff]
    constructor <;> norm_num
  rw [hc]
  norm_num

/-- `utils.PGN.has_analysis` returns `False` exactly when the mainline has a
node lacking an evaluation whose position is not checkmate, provided checkmate
positions are terminal (helper for claim C10). -/
theorem PGN_has_analysis_false_iff (l : List GNode) (hcm : checkmate_terminal l = true) :
    PGN_has_analysis l = false ↔ ∃ n ∈ l, n.ev = none ∧ n.checkmate = false := by
  induction l with
  | nil => simp [PGN_has_analysis]
  | cons a rest ih =>
    have hsplit : (a.checkmate = false ∨ rest = []) ∧ checkmate_terminal rest = true := by
      simpa [checkmate_terminal, Bool.or_eq_true, Bool.not_eq_true', List.isEmpty_iff]
        using hcm
    have hrest : checkmate_terminal rest = true := hsplit.2
    cases hev : a.ev with
    | none =>
      cases hc : a.checkmate with
      | true =>
        have hempty : rest = [] := by
          rcases hsplit.1 with h | h
          · rw [hc] at h; cases h
          · exact h
        subst hempty
        simp [PGN_has_analysis, hev, hc]
      | false =>
        have hPA : PGN_has_analysis (a :: rest) = false := by
          simp [PGN_has_analysis, hev, hc]
        rw [hPA]
        constructor
        · intro _
          exact ⟨a, List.mem_cons_self a rest, hev, hc⟩
        · intro _
          rfl
    | some s =>
      have hstep : PGN_has_analysis (a :: rest) = PGN_has_analysis rest := by
        simp [PGN_has_analysis, hev]
      rw [hstep, ih hrest]
      constructor
      · rintro ⟨x, hx, h1, h2⟩
        exact ⟨x, List.mem_cons_of_mem _ hx, h1, h2⟩
      · rintro ⟨x, hx, h1, h2⟩
        rcases List.mem_cons.mp hx with rfl | hx'
        · rw [hev] at h1; cases h1
        · exact ⟨x, hx', h1, h2⟩

/-- Claim C10: under the chess invariant that a checkmate position ends the
mainline, `PGN.has_analysis` is `True` when every node has an evaluation or is
checkmate, is `False` exactly when some non-checkmate node lacks an
evaluation, stops scanning at an unannotated checkmate (the result does not
depend on anything after it), and `_eval` substitutes `PovScore(Mate(0), turn)`
for an unannotated checkmate instead of raising `MissingAnalysisError`. -/
theorem has_analysis_spec (l : List GNode) (hcm : checkmate_terminal l = true) :
    ((∀ n ∈ l, n.ev.isSome = true ∨ n.checkmate = true) → PGN_has_analysis l = true)
  ∧ (PGN_has_analysis l = false ↔ ∃ n ∈ l, n.ev = none ∧ n.checkmate = false)
  ∧ (∀ a : GNode, ∀ rest rest' : List GNode, a.ev = none → a.checkmate = true →
      PGN_has_analysis (a :: rest) = true
      ∧ PGN_has_analysis (a :: rest) = PGN_has_analysis (a :: rest'))
  ∧ (∀ a : GNode, a.ev = none → a.checkmate = true →
      node_eval a = Except.ok { score := .mate 0, turn := a.turn }) := by
  refine ⟨?_, PGN_has_analysis_false_iff l hcm, ?_, ?_⟩
  · intro hall
    by_contra hne
    have hfalse : PGN_has_analysis l = false := by
      cases hb : PGN_has_analysis l
      · rfl
      · exact absurd hb hne
    obtain ⟨x, hx, h1, h2⟩ := (PGN_has_analysis_false_iff l hcm).mp hfalse
    rcases hall x hx with h | h
    · rw [h1] at h; cases h
    · rw [h] at h2; cases h2
  · intro a rest rest' hev hc
    constructor <;> simp [PGN_has_analysis, hev, hc]
  · intro a hev hc
    simp [node_eval, hev, hc]

/-- Witness for claim C10: a game whose last node is an unannotated checkmate
still counts as analysed, and `_eval` yields `Mate(0)` there. -/
theorem has_analysis_spec_witness :
    checkmate_terminal
      [⟨some ⟨.cp 50, true⟩, false, true⟩, (⟨none, true, false⟩ : GNode)] = true
  ∧ PGN_has_analysis
      [⟨some ⟨.cp 50, true⟩, false, true⟩, (⟨none, true, false⟩ : GNode)] = true
  ∧ node_eval (⟨none, true, false⟩ : GNode)
      = Except.ok { score := .mate 0, turn := false } := by
  have h := has_analysis_spec
    [⟨some ⟨.cp 50, true⟩, false, true⟩, (⟨none, true, false⟩ : GNode)] (by decide)
  exact ⟨by decide, h.1 (by decide), h.2.2.2 ⟨none, true, false⟩ rfl rfl⟩

/-- Claim C7: `shorten_line` by the exact segment length collapses the segment
to `(a, a)`; shortening by 0 returns `(a, b)` unchanged; and for a degenerate
segment (`b = a`) it returns `(a, a)` for every amount. -/
theorem shorten_line_spec (a b : ℝ × ℝ) (pix : ℝ) :
    (pix = seg_length a b → shorten_line a b pix = (a, a))
  ∧ shorten_line a b 0 = (a, b)
  ∧ (b = a → shorten_line a b pix = (a, a)) := by
  refine ⟨?_, ?_, ?_⟩
  · intro h
    subst h
    simp [shorten_line, seg_length]
  · by_cases hl : 0 < Real.sqrt ((b.1 - a.1) * (b.1 - a.1) + (b.2 - a.2) * (b.2 - a.2))
    · have hl' : Real.sqrt ((b.1 - a.1) * (b.1 - a.1) + (b.2 - a.2) * (b.2 - a.2)) ≠ 0 :=
        ne_of_gt hl
      simp only [shorten_line, hl, if_true, sub_zero]
      rw [div_mul_cancel₀ _ hl', div_mul_cancel₀ _ hl']
      simp
    · have hl0 : Real.sqrt ((b.1 - a.1) * (b.1 - a.1) + (b.2 - a.2) * (b.2 - a.2)) = 0 :=
        le_antisymm (not_lt.mp hl) (Real.sqrt_nonneg _)
      have hsum : (b.1 - a.1) * (b.1 - a.1) + (b.2 - a.2) * (b.2 - a.2) = 0 := by
        have hle : (b.1 - a.1) * (b.1 - a.1) + (b.2 - a.2) * (b.2 - a.2) ≤ 0 :=
          Real.sqrt_eq_zero'.mp hl0
        nlinarith [mul_self_nonneg (b.1 - a.1), mul_self_nonneg (b.2 - a.2)]
      have hdx : b.1 - a.1 = 0 := by
        have := mul_self_nonneg (b.2 - a.2)
        nlinarith [mul_self_nonneg (b.1 - a.1)]
      have hdy : b.2 - a.2 = 0 := by
        nlinarith [mul_self_nonneg (b.2 - a.2)]
      have hb1 : b.1 = a.1 := by linarith
      have hb2 : b.2 = a.2 := by linarith
      have hab : b = a := Prod.ext_iff.mpr ⟨hb1, hb2⟩
      rw [hab]
      simp [shorten_line]
  · intro hb
    subst hb
    simp [shorten_line]

/-- Witness for claim C7 on the segment (0,0)-(3,4) of length 5. -/
theorem shorten_line_spec_witness :
    ((5:ℝ) = seg_length (0, 0) (3, 4) ∧ shorten_line (0, 0) (3, 4) 5 = ((0, 0), (0, 0)))
  ∧ shorten_line (0, 0) (3, 4) 0 = ((0, 0), (3, 4)) := by
  have h5 : (5:ℝ) = seg_length ((0:ℝ), (0:ℝ)) ((3:ℝ), (4:ℝ)) := by
    have harg : seg_length ((0:ℝ), (0:ℝ)) ((3:ℝ), (4:ℝ)) = Real.sqrt (5 ^ 2) := by
      rw [seg_length]
      norm_num
    rw [harg, Real.sqrt_sq (by norm_num)]
  exact ⟨⟨h5, (shorten_line_spec (0, 0) (3, 4) 5).1 h5⟩,
    (shorten_line_spec (0, 0) (3, 4) 0).2.1⟩

/-- Counterexample to claim C8: `rotate_around_point` does not return
integer-truncated coordinates.  Rotating (1, 0) by π/3 about the origin gives
first coordinate `cos(π/3) = 1/2`, which is no integer. -/
theorem rotate_not_integer_truncated :
    ¬ ∃ zx : ℤ, (rotate_around_point (1, 0) (Real.pi / 3) (0, 0)).1 = (zx : ℝ) := by
  have hval : (rotate_around_point (1, 0) (Real.pi / 3) (0, 0)).1 = 1 / 2 := by
    simp [rotate_around_point, Real.cos_pi_div_three]
  rw [hval]
  rintro ⟨zx, hz⟩
  have h2 : ((2 * zx : ℤ) : ℝ) = 1 := by push_cast; linarith
  have h3 : (2 * zx : ℤ) = 1 := by exact_mod_cast h2
  omega

/-- Claim C8 (amended): `rotate_around_point` computes exactly the
screen-convention rotation — the standard mathematical rotation with the
angle's sign negated — returning the exact real coordinates (no integer
truncation happens inside it). -/
theorem rotate_matches_neg_math_rotation (p : ℝ × ℝ) (radians : ℝ) (o : ℝ × ℝ) :
    rotate_around_point p radians o = math_rotation p (-radians) o := by
  simp only [rotate_around_point, math_rotation, Real.cos_neg, Real.sin_neg, Prod.mk.injEq]
  constructor <;> ring
